import Mathlib

/-!
Shallow embedding of the report-rendering and forecasting engine of
`main.py` (desktop analytics dashboard over a sales warehouse).

The embedding follows the source:
* `AnalysisFrame.run_query` — chart-type dispatch on the report name,
  pie explode computation, bar chart, time-line tick thinning;
* `AIFrame.run_prediction` — forecast request validation, the
  insufficient-data check, polynomial least-squares fit, future labels;
* the `sqlite3.connect … conn.close()` connection lifecycle shared by both.

Numbers that are Python floats are modelled as `ℚ` (exact arithmetic is the
idealised semantics of the floating computation); month counts and indices
are `ℕ`/`ℤ` as in the source.
-/

namespace Dashboard

/-! ### String containment (Python's `needle in haystack`) -/

/-- Python's substring test `needle in hay`, on the character lists of the
two strings: some suffix of `hay` starts with `needle`. -/
def strContains (hay needle : String) : Bool :=
  (List.range (hay.toList.length + 1)).any
    (fun i => needle.toList.isPrefixOf (hay.toList.drop i))

/-! ### Report classifier (`run_query`'s `if/elif/else` on the report name) -/

inductive ChartArchetype where
  | Pie
  | CategoricalBar
  | TimeLine
deriving DecidableEq, Repr

/-- The chart-type dispatch of `AnalysisFrame.run_query`:
`if "Distribution" in name: pie … elif "Categories" in name or "State" in
name: bar … else: line`. -/
def classify (name : String) : ChartArchetype :=
  if strContains name "Distribution" then ChartArchetype.Pie
  else if strContains name "Categories" || strContains name "State" then
    ChartArchetype.CategoricalBar
  else ChartArchetype.TimeLine

/-! ### TimeLine tick thinning -/

/-- Python's `range(start, stop, step)` for a positive step: the values
`start, start+step, …` strictly below `stop`. -/
def pyRange (start stop step : ℕ) : List ℕ :=
  List.range' start ((stop - start + step - 1) / step) step

/-- `tick_spacing = max(1, len(x_data) // 12)` from the line-plot branch of
`run_query`. -/
def tick_spacing (L : ℕ) : ℕ := max 1 (L / 12)

/-- `valid_indices = [i for i in range(0, len(x_data), tick_spacing) if i <
len(x_data)]` from the line-plot branch of `run_query`. -/
def valid_indices (L : ℕ) : List ℕ :=
  (pyRange 0 L (tick_spacing L)).filter (fun i => i < L)

/-! ### Pie explode computation -/

/-- The explode list of the pie branch of `run_query`:
`explode_values = [0] * len(y_data)`, then if the series is non-empty and
its maximum is positive, `explode_values[y_data.idxmax()] = 0.1`
(`idxmax` returns the first position attaining the maximum). -/
def explodeValues (ys : List ℚ) : List ℚ :=
  let base := List.replicate ys.length (0 : ℚ)
  match ys.maximum with
  | none => base
  | some m =>
      if 0 < m then
        base.set (ys.findIdx (fun z => z = m)) (1 / 10)
      else base

/-! ### The rendering decision of `run_query`

`run_query` first checks `df.empty` (placeholder text), then dispatches on
the report name.  `DrawPlan` records which branch ran and the data that
branch passes to the drawing calls. -/

inductive DrawPlan where
  | noData
  | pie (explode : List ℚ)
  | bar
  | line (ticks : List ℕ)
deriving DecidableEq, Repr

/-- The branch structure of `AnalysisFrame.run_query` after a successful
query: empty frame → "No data available." placeholder; name containing
"Distribution" → `ax.pie(…, explode=explode_values)`; name containing
"Categories" or "State" → `ax.bar`; otherwise `ax.plot` with the thinned
ticks. -/
def run_query_plan (name : String) (series : List (String × ℚ)) : DrawPlan :=
  if series.isEmpty then DrawPlan.noData
  else if strContains name "Distribution" then
    DrawPlan.pie (explodeValues (series.map Prod.snd))
  else if strContains name "Categories" || strContains name "State" then
    DrawPlan.bar
  else DrawPlan.line (valid_indices series.length)

/-! ### Warehouse connection lifecycle -/

inductive LoadResult where
  | rows (data : List (String × ℚ))
  | dbError (msg : String)
deriving DecidableEq, Repr

structure LoadState where
  connOpened : Bool
  connClosed : Bool
deriving DecidableEq, Repr

/-- The connection lifecycle shared by `run_query` and `run_prediction`:
`conn = sqlite3.connect(DB_PATH); conn.execute("PRAGMA query_only = ON;");
df = pd.read_sql_query(query, conn); conn.close()` inside a
`try/except sqlite3.Error …` whose handlers only set a status message.
The query's outcome is the parameter: on success the subsequent
`conn.close()` runs; on a raised `sqlite3.Error` control transfers to the
handler and the `conn.close()` statement is skipped. -/
def load_series (queryOutcome : Except String (List (String × ℚ))) :
    LoadResult × LoadState :=
  match queryOutcome with
  | Except.ok rows => (LoadResult.rows rows, ⟨true, true⟩)
  | Except.error e => (LoadResult.dbError e, ⟨true, false⟩)

/-! ### Polynomial least squares (the `PolynomialFeatures` + `LinearRegression`
pipeline of `run_prediction`)

`make_pipeline(PolynomialFeatures(degree=d, include_bias=False),
LinearRegression())` fitted on `(time_idx, y)` with `time_idx = 0..n-1`
computes the ordinary-least-squares coefficients `c₀..c_d` of
`y ≈ c₀ + c₁ t + … + c_d t^d` (`LinearRegression` adds the intercept `c₀`).
For `n ≥ d+1` points at distinct indices the design matrix has full column
rank, so the least-squares solution is the unique solution of the normal
equations `(AᵀA) c = Aᵀ y`; we compute it by Cramer's rule over `ℚ`. -/

/-- Evaluate a polynomial given by its coefficient list `[c₀, c₁, …]`
(lowest degree first) at `x`. -/
def evalPoly (cs : List ℚ) (x : ℚ) : ℚ :=
  cs.foldr (fun c acc => c + x * acc) 0

/-- `Σ_{i < n} i^p` for `n` data points: entry `(j,k)` of the normal matrix
`AᵀA` is `powSum n (j+k)`. -/
def powSum (n p : ℕ) : ℚ :=
  ((List.range n).map (fun i : ℕ => (i : ℚ) ^ p)).sum

/-- `Σ_{i < n} i^p · y_i`: entry `j` of the right-hand side `Aᵀ y`. -/
def momSum (ys : List ℚ) (p : ℕ) : ℚ :=
  ((List.range ys.length).map (fun i : ℕ => (i : ℚ) ^ p * ys.getD i 0)).sum

/-- The normal matrix `AᵀA` of the degree-`d` polynomial design on
`time_idx = 0..n-1` (rows as lists). -/
def normalMat (d n : ℕ) : List (List ℚ) :=
  (List.range (d + 1)).map
    (fun j => (List.range (d + 1)).map (fun k => powSum n (j + k)))

/-- The right-hand side `Aᵀ y` of the normal equations. -/
def normalVec (d : ℕ) (ys : List ℚ) : List ℚ :=
  (List.range (d + 1)).map (fun j => momSum ys j)

/-- Determinant of a square matrix given as a list of rows, by Laplace
expansion along the first row; the `ℕ` argument is structural fuel equal to
the number of rows. -/
def detAux : ℕ → List (List ℚ) → ℚ
  | _, [] => 1
  | 0, _ :: _ => 0
  | fuel + 1, r :: rs =>
      ((List.range r.length).map
        (fun k => (-1 : ℚ) ^ k * r.getD k 0 *
          detAux fuel (rs.map (fun row => row.eraseIdx k)))).sum

/-- Determinant of a list-of-rows matrix. -/
def det (M : List (List ℚ)) : ℚ := detAux M.length M

/-- Replace column `k` of `M` by the vector `v`. -/
def replaceCol (M : List (List ℚ)) (k : ℕ) (v : List ℚ) : List (List ℚ) :=
  (M.zip v).map (fun rv => rv.1.set k rv.2)

/-- Cramer's rule: solution of `M x = v`; entry `k` is
`det (M with column k replaced by v) / det M`.  (When `det M = 0` the `ℚ`
division yields `0`; in `run_prediction` this case never arises because
the insufficient-data check guarantees full column rank.) -/
def cramerSolve (M : List (List ℚ)) (v : List ℚ) : List ℚ :=
  (List.range v.length).map (fun k => det (replaceCol M k v) / det M)

/-- The fitted coefficients `c₀..c_d` of the sklearn pipeline on the series
`ys` indexed by `0..n-1`. -/
def polyFit (d : ℕ) (ys : List ℚ) : List ℚ :=
  cramerSolve (normalMat d ys.length) (normalVec d ys)

/-! ### Future period labels (step 7 of the forecast) -/

/-- Split a character list on `'-'` (Python `str.split('-')` /
the separator structure `pd.to_datetime` sees in `"YYYY-MM-01"`). -/
def splitDash : List Char → List (List Char)
  | [] => [[]]
  | c :: cs =>
      if c = '-' then [] :: splitDash cs
      else
        match splitDash cs with
        | [] => [[c]]
        | g :: gs => (c :: g) :: gs

/-- Numeric value of a digit string. -/
def digitsToNat (cs : List Char) : ℕ :=
  cs.foldl (fun acc c => 10 * acc + (c.toNat - 48)) 0

/-- Models `pd.to_datetime(last_date_str + "-01")` on a `YYYY-MM` token:
succeeds exactly when the label is `<digits>-<digits>` with the month part
in `1..12`, returning the year and month. -/
def parseYM (s : String) : Option (ℕ × ℕ) :=
  match splitDash s.toList with
  | [ys, ms] =>
      if ys ≠ [] ∧ ms ≠ [] ∧ ys.all Char.isDigit ∧ ms.all Char.isDigit ∧
          1 ≤ digitsToNat ms ∧ digitsToNat ms ≤ 12 then
        some (digitsToNat ys, digitsToNat ms)
      else none
  | _ => none

/-- The next calendar month. -/
def nextYM : ℕ × ℕ → ℕ × ℕ :=
  fun p => if p.2 = 12 then (p.1 + 1, 1) else (p.1, p.2 + 1)

/-- Zero-pad a number to two digits (`strftime('%m')`). -/
def pad2 (n : ℕ) : String :=
  if n < 10 then "0" ++ toString n else toString n

/-- Zero-pad a year to four digits (`strftime('%Y')` for common-era years)
and append the two-digit month: the `%Y-%m` format of the label code. -/
def formatYM (p : ℕ × ℕ) : String :=
  (if p.1 < 10 then "000" else if p.1 < 100 then "00"
   else if p.1 < 1000 then "0" else "") ++ toString p.1 ++ "-" ++ pad2 p.2

/-- `pd.date_range(start=last_date + 1 month, periods=h, freq='MS')`
formatted `%Y-%m`: the `h` consecutive months after `(y, m)`. -/
def futureLabels (y m h : ℕ) : List String :=
  (List.range h).map (fun i => formatYM (nextYM^[i + 1] (y, m)))

/-- The fallback labels `["P1", "P2", …]` used when date parsing fails. -/
def pLabels (h : ℕ) : List String :=
  (List.range h).map (fun i => "P" ++ toString (i + 1))

/-! ### `AIFrame.run_prediction` -/

structure ForecastOk where
  fitted : List ℚ
  predicted : List ℚ
  labels : List String
deriving DecidableEq, Repr

inductive PredOutcome where
  | invalidRequest (msg : String)
  | insufficientData (minPoints : ℕ)
  | ok (r : ForecastOk)
deriving DecidableEq, Repr

/-- Which stages of `run_prediction` executed: whether the warehouse query
ran (`conn = sqlite3.connect …; pd.read_sql_query …`) and whether a
regression was fitted (`model.fit`). -/
structure RunTrace where
  queried : Bool
  fittedModel : Bool
deriving DecidableEq, Repr

/-- `AIFrame.run_prediction`, with the warehouse content (the rows the
`Monthly Revenue` query would return) passed as `hist`:
1. `if not (1 <= num_months_to_predict <= 36): … return` (invalid request);
2. `if not (1 <= poly_degree <= 5): … return` (invalid request);
3. the query runs; `min_points = poly_degree + 1`;
   `if df_historical.empty or len(df_historical) < min_points: … return`;
4. fit the polynomial pipeline on indices `0..n-1`, evaluate it at the same
   indices (`y_fit_hist`) and at `n..n+h-1` (`y_pred`);
5. generate future labels from the last historical `x` label, falling back
   to `P1, P2, …` when parsing raises. -/
def run_prediction (months degree : ℤ) (hist : List (String × ℚ)) :
    PredOutcome × RunTrace :=
  if ¬(1 ≤ months ∧ months ≤ 36) then
    (PredOutcome.invalidRequest "Err: Months 1-36.", ⟨false, false⟩)
  else if ¬(1 ≤ degree ∧ degree ≤ 5) then
    (PredOutcome.invalidRequest "Err: Degree 1-5.", ⟨false, false⟩)
  else
    let n := hist.length
    let d := degree.toNat
    let h := months.toNat
    let minPoints := d + 1
    if n = 0 ∨ n < minPoints then
      (PredOutcome.insufficientData minPoints, ⟨true, false⟩)
    else
      let ys := hist.map Prod.snd
      let coeffs := polyFit d ys
      let fitted := (List.range n).map (fun i : ℕ => evalPoly coeffs (i : ℚ))
      let predicted :=
        (List.range h).map (fun j : ℕ => evalPoly coeffs ((n : ℚ) + (j : ℚ)))
      let labels :=
        match hist.getLast? with
        | some lv =>
            match parseYM lv.1 with
            | some ym => futureLabels ym.1 ym.2 h
            | none => pLabels h
        | none => pLabels h
      (PredOutcome.ok ⟨fitted, predicted, labels⟩, ⟨true, true⟩)

/-! ## Theorems -/

/-- C1: the chart archetype is chosen by substring match with fixed
precedence — "Distribution" gives a Pie; otherwise "Categories" or "State"
gives a CategoricalBar; otherwise a TimeLine.  The "Distribution" check runs
first, so a name matching both patterns is rendered as a Pie. -/
theorem chart_dispatch_precedence (name : String) :
    (strContains name "Distribution" = true →
      classify name = ChartArchetype.Pie) ∧
    (strContains name "Distribution" = false →
      (strContains name "Categories" = true ∨
        strContains name "State" = true) →
      classify name = ChartArchetype.CategoricalBar) ∧
    (strContains name "Distribution" = false →
      strContains name "Categories" = false →
      strContains name "State" = false →
      classify name = ChartArchetype.TimeLine) := by
  unfold classify
  refine ⟨fun h => by simp [h], fun h1 h2 => ?_, fun h1 h2 h3 => by
    simp [h1, h2, h3]⟩
  rcases h2 with h2 | h2 <;> simp [h1, h2]

/-- Witness for C1 at a name matching both the Pie and the Bar pattern. -/
theorem chart_dispatch_precedence_witness :
    strContains "Sales Distribution by Categories" "Distribution" = true ∧
    classify "Sales Distribution by Categories" = ChartArchetype.Pie :=
  ⟨by decide,
    (chart_dispatch_precedence "Sales Distribution by Categories").1
      (by decide)⟩

/-- C2: for a non-empty series of length `L`, the tick stride is
`max(1, L // 12)`, the displayed tick indices are exactly the multiples of
the stride below `L`, and their number is `⌈L / stride⌉`. -/
theorem timeline_tick_thinning (L : ℕ) (hL : 0 < L) :
    (valid_indices L).length = L ⌈/⌉ tick_spacing L ∧
    ∀ i : ℕ, i ∈ valid_indices L ↔
      (∃ k, i = k * tick_spacing L) ∧ i < L := by
  have hs : 0 < tick_spacing L :=
    lt_of_lt_of_le Nat.one_pos (le_max_left 1 (L / 12))
  set s := tick_spacing L with hsdef
  have key1 : ∀ k : ℕ, (k < (L + s - 1) / s ↔ k * s < L) := by
    intro k
    rw [Nat.lt_iff_add_one_le, Nat.le_div_iff_mul_le hs, add_one_mul]
    generalize k * s = m
    omega
  have hmem : ∀ i : ℕ,
      i ∈ pyRange 0 L s ↔ ∃ k, k < (L + s - 1) / s ∧ i = s * k := by
    intro i
    simp [pyRange, List.mem_range']
  have hall : ∀ i ∈ pyRange 0 L s, i < L := by
    intro i hi
    obtain ⟨k, hk, rfl⟩ := (hmem i).mp hi
    have hk2 := (key1 k).mp hk
    calc s * k = k * s := Nat.mul_comm s k
    _ < L := hk2
  have hfe : valid_indices L = pyRange 0 L s := by
    unfold valid_indices
    apply List.filter_eq_self.mpr
    intro a ha
    simpa using hall a ha
  refine ⟨?_, ?_⟩
  · rw [hfe, Nat.ceilDiv_eq_add_pred_div]
    simp [pyRange, List.length_range']
  · intro i
    rw [hfe, hmem i]
    constructor
    · rintro ⟨k, hk, rfl⟩
      exact ⟨⟨k, Nat.mul_comm s k⟩, by rw [Nat.mul_comm s k]; exact (key1 k).mp hk⟩
    · rintro ⟨⟨k, rfl⟩, hiL⟩
      exact ⟨k, (key1 k).mpr hiL, Nat.mul_comm k s⟩

/-- Witness for C2 at `L = 30` (stride `2`, `15` ticks). -/
theorem timeline_tick_thinning_witness :
    0 < 30 ∧ (valid_indices 30).length = 30 ⌈/⌉ tick_spacing 30 ∧
      (4 ∈ valid_indices 30 ↔ (∃ k, 4 = k * tick_spacing 30) ∧ 4 < 30) :=
  ⟨by decide, (timeline_tick_thinning 30 (by decide)).1,
    (timeline_tick_thinning 30 (by decide)).2 4⟩

/-- C5: a forecast request with the month horizon outside `[1, 36]` or the
polynomial degree outside `[1, 5]` is rejected as an invalid request before
the series is touched: the warehouse is not queried and no model is
fitted. -/
theorem invalid_request_rejected_early (months degree : ℤ)
    (hist : List (String × ℚ))
    (h : ¬(1 ≤ months ∧ months ≤ 36) ∨ ¬(1 ≤ degree ∧ degree ≤ 5)) :
    (∃ msg, (run_prediction months degree hist).1 =
      PredOutcome.invalidRequest msg) ∧
    (run_prediction months degree hist).2.queried = false ∧
    (run_prediction months degree hist).2.fittedModel = false := by
  unfold run_prediction
  by_cases h1 : 1 ≤ months ∧ months ≤ 36
  · have h2 : ¬(1 ≤ degree ∧ degree ≤ 5) := by tauto
    simp [h1, h2]
  · simp [h1]

/-- Witness for C5 at an out-of-range horizon (`months = 0`). -/
theorem invalid_request_rejected_early_witness :
    (¬((1:ℤ) ≤ 0 ∧ (0:ℤ) ≤ 36) ∨ ¬((1:ℤ) ≤ 1 ∧ (1:ℤ) ≤ 5)) ∧
    ((∃ msg, (run_prediction 0 1 []).1 = PredOutcome.invalidRequest msg) ∧
      (run_prediction 0 1 []).2.queried = false ∧
      (run_prediction 0 1 []).2.fittedModel = false) :=
  ⟨by decide, invalid_request_rejected_early 0 1 [] (by decide)⟩

/-- C6: the claim says the warehouse connection is closed on every exit
path, including a failing query.  In the code
(`df = pd.read_sql_query(query, conn); conn.close()` inside
`try/except sqlite3.Error`), a query that raises transfers control to the
handler and skips `conn.close()`: the connection is closed on the success
path but left open on the query-failure path. -/
theorem connection_close_skipped_on_query_error :
    (load_series (Except.error "no such table: Fact_Sales")).2.connClosed
      = false ∧
    (load_series (Except.ok [])).2.connClosed = true :=
  ⟨rfl, rfl⟩

/-- Unfolding of `explodeValues` once the maximum of the series is known. -/
theorem explodeValues_eq_of_maximum (ys : List ℚ) (m : ℚ)
    (hmax : ys.maximum = (m : WithBot ℚ)) :
    explodeValues ys =
      if 0 < m then
        (List.replicate ys.length (0 : ℚ)).set
          (ys.findIdx (fun z => z = m)) (1 / 10)
      else List.replicate ys.length (0 : ℚ) := by
  unfold explodeValues
  rw [hmax]

/-- C3: with an in-bounds request, the forecast returns the
insufficient-data failure naming `degree + 1` exactly when the historical
series has fewer than `degree + 1` points, and succeeds otherwise. -/
theorem insufficient_data_iff (months degree : ℤ)
    (hist : List (String × ℚ))
    (hm : 1 ≤ months ∧ months ≤ 36) (hd : 1 ≤ degree ∧ degree ≤ 5) :
    ((run_prediction months degree hist).1 =
        PredOutcome.insufficientData (degree.toNat + 1) ↔
      hist.length < degree.toNat + 1) ∧
    (degree.toNat + 1 ≤ hist.length →
      ∃ r, (run_prediction months degree hist).1 = PredOutcome.ok r) := by
  have h1 : ¬¬(1 ≤ months ∧ months ≤ 36) := not_not_intro hm
  have h2 : ¬¬(1 ≤ degree ∧ degree ≤ 5) := not_not_intro hd
  unfold run_prediction
  rw [if_neg h1, if_neg h2]
  by_cases hlen : hist.length < degree.toNat + 1
  · rw [if_pos (Or.inr hlen)]
    exact ⟨by simp [hlen], fun hge => absurd hlen (by omega)⟩
  · have hcond : ¬(hist.length = 0 ∨ hist.length < degree.toNat + 1) := by
      omega
    rw [if_neg hcond]
    exact ⟨by simp [hlen], fun _ => ⟨_, rfl⟩⟩

/-- Witness for C3: degree 3 rejects a 3-point series as needing ≥ 4 points
and accepts a 4-point series. -/
theorem insufficient_data_iff_witness :
    (run_prediction 6 3 [("a", 1), ("b", 2), ("c", 3)]).1 =
      PredOutcome.insufficientData 4 ∧
    ∃ r, (run_prediction 6 3 [("a", 1), ("b", 2), ("c", 3), ("d", 4)]).1 =
      PredOutcome.ok r :=
  ⟨((insufficient_data_iff 6 3 [("a", 1), ("b", 2), ("c", 3)]
      (by decide) (by decide)).1).mpr (by decide),
    (insufficient_data_iff 6 3 [("a", 1), ("b", 2), ("c", 3), ("d", 4)]
      (by decide) (by decide)).2 (by decide)⟩

/-- C7 counterexample: a non-empty all-zero series on a "Distribution"
report is not rendered as the "no data" placeholder — `run_query` still
issues the pie call (with no exploded wedge). -/
theorem allzero_pie_not_placeholder :
    run_query_plan "Payment Type Distribution" [("A", 0), ("B", 0)] =
      DrawPlan.pie [0, 0] ∧
    run_query_plan "Payment Type Distribution" [("A", 0), ("B", 0)] ≠
      DrawPlan.noData := by
  have hmax : ([(0 : ℚ), 0]).maximum = ((0 : ℚ) : WithBot ℚ) := by
    rw [List.maximum_eq_coe_iff]
    refine ⟨by simp, ?_⟩
    intro a ha
    simp at ha
    simp [ha]
  have hplan : run_query_plan "Payment Type Distribution"
      [("A", 0), ("B", 0)] = DrawPlan.pie [0, 0] := by
    have hdist :
        strContains "Payment Type Distribution" "Distribution" = true := by
      decide
    unfold run_query_plan
    rw [if_neg (by simp), if_pos hdist]
    rw [show ([("A", (0 : ℚ)), ("B", 0)].map Prod.snd) = [(0 : ℚ), 0] from
      rfl]
    rw [explodeValues_eq_of_maximum [(0 : ℚ), 0] 0 hmax, if_neg (by simp)]
    simp
  exact ⟨hplan, by rw [hplan]; simp⟩

/-- C7 amended: the "no data" placeholder is produced exactly for an empty
series; a non-empty all-zero series on a "Distribution" report is still
passed to the pie renderer, with an all-zero explode list (no wedge
highlighted). -/
theorem no_data_placeholder_empty_only (name : String)
    (series : List (String × ℚ)) :
    run_query_plan name [] = DrawPlan.noData ∧
    (series ≠ [] → strContains name "Distribution" = true →
      (∀ p ∈ series, p.2 = 0) →
      run_query_plan name series =
        DrawPlan.pie (List.replicate series.length 0)) := by
  constructor
  · simp [run_query_plan]
  · intro hne hdist hzero
    have hysne : series.map Prod.snd ≠ [] := by simpa using hne
    obtain ⟨m, hm⟩ : ∃ m : ℚ, (series.map Prod.snd).maximum =
        (m : WithBot ℚ) := by
      have hb := List.maximum_ne_bot_of_ne_nil hysne
      cases h : (series.map Prod.snd).maximum with
      | bot => exact absurd h hb
      | coe m => exact ⟨m, rfl⟩
    have hmem : m ∈ series.map Prod.snd := List.maximum_mem hm
    have hm0 : m = 0 := by
      rcases List.mem_map.mp hmem with ⟨p, hp, rfl⟩
      exact hzero p hp
    unfold run_query_plan
    rw [if_neg (by simpa using hne), if_pos hdist,
      explodeValues_eq_of_maximum (series.map Prod.snd) m hm,
      if_neg (by rw [hm0]; exact lt_irrefl 0)]
    rw [List.length_map]

/-- Witness for C7's amended statement at a concrete one-point series. -/
theorem no_data_placeholder_empty_only_witness :
    run_query_plan "Payment Type Distribution" [] = DrawPlan.noData ∧
    run_query_plan "Payment Type Distribution" [("voucher", 0)] =
      DrawPlan.pie (List.replicate 1 0) :=
  ⟨(no_data_placeholder_empty_only "Payment Type Distribution" []).1,
    (no_data_placeholder_empty_only "Payment Type Distribution"
      [("voucher", 0)]).2 (by simp) (by decide)
      (by intro p hp; simp at hp; simp [hp])⟩

/-- C8: a non-empty pie series with positive total gets exactly one
exploded wedge — the explode list is all zeros except `0.1` at one index
`i`, and `i` is the first index attaining the maximum `y`. -/
theorem pie_explode_first_max (name : String) (series : List (String × ℚ))
    (hne : series ≠ []) (hsum : 0 < (series.map Prod.snd).sum)
    (hdist : strContains name "Distribution" = true) :
    ∃ i : ℕ, i < series.length ∧
      run_query_plan name series =
        DrawPlan.pie
          ((List.replicate series.length (0 : ℚ)).set i (1 / 10)) ∧
      (∀ j < series.length,
        (series.map Prod.snd).getD j 0 ≤ (series.map Prod.snd).getD i 0) ∧
      (∀ j < i,
        (series.map Prod.snd).getD j 0 < (series.map Prod.snd).getD i 0) := by
  have hysne : series.map Prod.snd ≠ [] := by simpa using hne
  obtain ⟨m, hm⟩ : ∃ m : ℚ, (series.map Prod.snd).maximum =
      (m : WithBot ℚ) := by
    have hb := List.maximum_ne_bot_of_ne_nil hysne
    cases h : (series.map Prod.snd).maximum with
    | bot => exact absurd h hb
    | coe m => exact ⟨m, rfl⟩
  have hmem : m ∈ series.map Prod.snd := List.maximum_mem hm
  have hle : ∀ y ∈ series.map Prod.snd, y ≤ m :=
    fun y hy => List.le_maximum_of_mem hy hm
  have hmpos : 0 < m := by
    by_contra hc
    push_neg at hc
    have hsle : (series.map Prod.snd).sum ≤ (series.map Prod.snd).length • m :=
      List.sum_le_card_nsmul _ _ hle
    have : (series.map Prod.snd).length • m ≤ 0 := by
      rcases Nat.eq_zero_or_pos (series.map Prod.snd).length with h0 | h0
      · simp [h0]
      · calc (series.map Prod.snd).length • m
            ≤ (series.map Prod.snd).length • (0 : ℚ) :=
              smul_le_smul_of_nonneg_left hc (Nat.zero_le _)
        _ = 0 := smul_zero _
    exact absurd hsum (by linarith [le_trans hsle this])
  have hilt : (series.map Prod.snd).findIdx (fun z => z = m) <
      (series.map Prod.snd).length :=
    List.findIdx_lt_length_of_exists ⟨m, hmem, by simp⟩
  have higet : (series.map Prod.snd).getD
      ((series.map Prod.snd).findIdx (fun z => z = m)) 0 = m := by
    rw [List.getD_eq_getElem _ _ hilt]
    have := @List.findIdx_getElem _ (fun z => z = m) (series.map Prod.snd)
      hilt
    simpa using this
  have hgetDmem : ∀ j : ℕ, j < (series.map Prod.snd).length →
      (series.map Prod.snd).getD j 0 ∈ series.map Prod.snd := by
    intro j hj
    rw [List.getD_eq_getElem _ _ hj]
    exact List.getElem_mem hj
  refine ⟨(series.map Prod.snd).findIdx (fun z => z = m),
    by simpa using hilt, ?_, ?_, ?_⟩
  · unfold run_query_plan
    rw [if_neg (by simpa using hne), if_pos hdist,
      explodeValues_eq_of_maximum (series.map Prod.snd) m hm,
      if_pos hmpos, List.length_map]
  · intro j hj
    have hj' : j < (series.map Prod.snd).length := by simpa using hj
    rw [higet]
    exact hle _ (hgetDmem j hj')
  · intro j hj
    have hj' : j < (series.map Prod.snd).length := lt_trans hj hilt
    have hnej : (series.map Prod.snd).getD j 0 ≠ m := by
      rw [List.getD_eq_getElem _ _ hj']
      have := @List.not_of_lt_findIdx _ (fun z => z = m)
        (series.map Prod.snd) j hj
      simpa using this
    rw [higet]
    exact lt_of_le_of_ne (hle _ (hgetDmem j hj')) hnej

/-- Witness for C8 at a two-wedge series with a unique positive maximum. -/
theorem pie_explode_first_max_witness :
    ∃ i : ℕ, i < ([("credit", (5 : ℚ)), ("debit", 2)]).length ∧
      run_query_plan "Payment Type Distribution"
          [("credit", (5 : ℚ)), ("debit", 2)] =
        DrawPlan.pie
          ((List.replicate ([("credit", (5 : ℚ)), ("debit", 2)]).length
            (0 : ℚ)).set i (1 / 10)) ∧
      (∀ j < ([("credit", (5 : ℚ)), ("debit", 2)]).length,
        (([("credit", (5 : ℚ)), ("debit", 2)]).map Prod.snd).getD j 0 ≤
          (([("credit", (5 : ℚ)), ("debit", 2)]).map Prod.snd).getD i 0) ∧
      (∀ j < i,
        (([("credit", (5 : ℚ)), ("debit", 2)]).map Prod.snd).getD j 0 <
          (([("credit", (5 : ℚ)), ("debit", 2)]).map Prod.snd).getD i 0) :=
  pie_explode_first_max "Payment Type Distribution"
    [("credit", (5 : ℚ)), ("debit", 2)] (by simp)
    (by norm_num [List.sum_cons]) (by decide)

/-- Unfolding of the success branch of `run_prediction`: with an in-bounds
request and at least `degree + 1` historical points the result is `ok` with
the fitted, predicted and label components spelled out. -/
theorem run_prediction_ok (months degree : ℤ) (hist : List (String × ℚ))
    (hm : 1 ≤ months ∧ months ≤ 36) (hd : 1 ≤ degree ∧ degree ≤ 5)
    (hn : degree.toNat + 1 ≤ hist.length) :
    run_prediction months degree hist =
      (PredOutcome.ok
        ⟨(List.range hist.length).map
            (fun i : ℕ =>
              evalPoly (polyFit degree.toNat (hist.map Prod.snd)) (i : ℚ)),
          (List.range months.toNat).map
            (fun j : ℕ =>
              evalPoly (polyFit degree.toNat (hist.map Prod.snd))
                ((hist.length : ℚ) + (j : ℚ))),
          match hist.getLast? with
          | some lv =>
              match parseYM lv.1 with
              | some ym => futureLabels ym.1 ym.2 months.toNat
              | none => pLabels months.toNat
          | none => pLabels months.toNat⟩,
        ⟨true, true⟩) := by
  unfold run_prediction
  rw [if_neg (not_not_intro hm), if_neg (not_not_intro hd),
    if_neg (show ¬(hist.length = 0 ∨ hist.length < degree.toNat + 1) by
      omega)]

/-- C9: every successful forecast has exactly `horizon` predicted points
and exactly as many fitted points as historical points, the fitted values
being the model evaluated at the indices `0..n-1`. -/
theorem forecast_lengths (months degree : ℤ) (hist : List (String × ℚ))
    (r : ForecastOk) (t : RunTrace)
    (h : run_prediction months degree hist = (PredOutcome.ok r, t)) :
    r.predicted.length = months.toNat ∧
    r.fitted.length = hist.length ∧
    r.fitted = (List.range hist.length).map
      (fun i : ℕ =>
        evalPoly (polyFit degree.toNat (hist.map Prod.snd)) (i : ℚ)) := by
  by_cases h1 : 1 ≤ months ∧ months ≤ 36
  · by_cases h2 : 1 ≤ degree ∧ degree ≤ 5
    · by_cases h3 : degree.toNat + 1 ≤ hist.length
      · rw [run_prediction_ok months degree hist h1 h2 h3] at h
        injection h with hf hs
        injection hf with hr
        subst hr
        simp
      · have hfail : run_prediction months degree hist =
            (PredOutcome.insufficientData (degree.toNat + 1),
              ⟨true, false⟩) := by
          unfold run_prediction
          rw [if_neg (not_not_intro h1), if_neg (not_not_intro h2),
            if_pos (show hist.length = 0 ∨
              hist.length < degree.toNat + 1 by omega)]
        rw [hfail] at h
        simp at h
    · have hfail : run_prediction months degree hist =
          (PredOutcome.invalidRequest "Err: Degree 1-5.",
            ⟨false, false⟩) := by
        unfold run_prediction
        rw [if_neg (not_not_intro h1), if_pos h2]
      rw [hfail] at h
      simp at h
  · have hfail : run_prediction months degree hist =
        (PredOutcome.invalidRequest "Err: Months 1-36.",
          ⟨false, false⟩) := by
      unfold run_prediction
      rw [if_pos h1]
    rw [hfail] at h
    simp at h

/-- Witness for C9 at a 2-point series with horizon 1 and degree 1. -/
theorem forecast_lengths_witness :
    run_prediction 1 1 [("a", 0), ("b", 0)] =
      (PredOutcome.ok
        ⟨(List.range 2).map
            (fun i : ℕ => evalPoly (polyFit 1 [0, 0]) (i : ℚ)),
          (List.range 1).map
            (fun j : ℕ => evalPoly (polyFit 1 [0, 0]) ((2 : ℚ) + (j : ℚ))),
          pLabels 1⟩, ⟨true, true⟩) ∧
    ((List.range 1).map
      (fun j : ℕ => evalPoly (polyFit 1 [0, 0]) ((2 : ℚ) + (j : ℚ)))).length
        = 1 ∧
    ((List.range 2).map
      (fun i : ℕ => evalPoly (polyFit 1 [0, 0]) (i : ℚ))).length = 2 :=
  ⟨run_prediction_ok 1 1 [("a", 0), ("b", 0)] (by decide) (by decide)
      (by decide),
    (forecast_lengths 1 1 [("a", 0), ("b", 0)] _ _
      (run_prediction_ok 1 1 [("a", 0), ("b", 0)] (by decide) (by decide)
        (by decide))).1,
    (forecast_lengths 1 1 [("a", 0), ("b", 0)] _ _
      (run_prediction_ok 1 1 [("a", 0), ("b", 0)] (by decide) (by decide)
        (by decide))).2.1⟩

/-- C10: a successful forecast labels the predicted points with the next
`horizon` calendar months when the last historical label parses as
`YYYY-MM`, and falls back to `"P1", "P2", …` when parsing fails; in both
cases the forecast succeeds and the predicted values are the model's
evaluations, unaffected by the label outcome. -/
theorem forecast_label_fallback (months degree : ℤ)
    (hist : List (String × ℚ))
    (hm : 1 ≤ months ∧ months ≤ 36) (hd : 1 ≤ degree ∧ degree ≤ 5)
    (hn : degree.toNat + 1 ≤ hist.length) (lbl : String) (v : ℚ)
    (hlast : hist.getLast? = some (lbl, v)) :
    ∃ r t, run_prediction months degree hist = (PredOutcome.ok r, t) ∧
      r.predicted = (List.range months.toNat).map
        (fun j : ℕ =>
          evalPoly (polyFit degree.toNat (hist.map Prod.snd))
            ((hist.length : ℚ) + (j : ℚ))) ∧
      (∀ y mo, parseYM lbl = some (y, mo) →
        r.labels = futureLabels y mo months.toNat) ∧
      (parseYM lbl = none → r.labels = pLabels months.toNat) := by
  refine ⟨_, _, run_prediction_ok months degree hist hm hd hn, rfl, ?_, ?_⟩
  · intro y mo hp
    simp only [hlast, hp]
  · intro hp
    simp only [hlast, hp]

/-- Witness for C10 at a series whose last label does not parse, showing
the non-fatal fallback to ordinal labels. -/
theorem forecast_label_fallback_witness :
    parseYM "b" = none ∧
    ∃ r t, run_prediction 1 1 [("a", 0), ("b", 0)] =
        (PredOutcome.ok r, t) ∧
      r.predicted = (List.range (1 : ℤ).toNat).map
        (fun j : ℕ =>
          evalPoly (polyFit (1 : ℤ).toNat
              ([("a", (0 : ℚ)), ("b", 0)].map Prod.snd))
            (([("a", (0 : ℚ)), ("b", 0)].length : ℚ) + (j : ℚ))) ∧
      (∀ y mo, parseYM "b" = some (y, mo) →
        r.labels = futureLabels y mo (1 : ℤ).toNat) ∧
      (parseYM "b" = none → r.labels = pLabels (1 : ℤ).toNat) :=
  ⟨by decide,
    forecast_label_fallback 1 1 [("a", 0), ("b", 0)] (by decide) (by decide)
      (by decide) "b" 0 rfl⟩

lemma det_two (A B C D : ℚ) : det [[A, B], [C, D]] = A * D - B * C := by
  simp [det, detAux, List.range_succ]
  ring

lemma cramerSolve_two (A B C D E F : ℚ) :
    cramerSolve [[A, B], [C, D]] [E, F] =
      [(E * D - B * F) / (A * D - B * C),
       (A * F - E * C) / (A * D - B * C)] := by
  simp [cramerSolve, replaceCol, det, detAux, List.range_succ]
  constructor <;> ring_nf

lemma sum_map_add_mul (l : List ℕ) (p : ℕ) (a b : ℚ) :
    (l.map (fun i : ℕ => (i : ℚ) ^ p * (a + b * (i : ℚ)))).sum =
      a * (l.map (fun i : ℕ => (i : ℚ) ^ p)).sum +
        b * (l.map (fun i : ℕ => (i : ℚ) ^ (p + 1))).sum := by
  induction l with
  | nil => simp
  | cons x xs ih =>
      simp only [List.map_cons, List.sum_cons, ih]
      ring

lemma powSum_succ (n p : ℕ) : powSum (n + 1) p = powSum n p + (n : ℚ) ^ p := by
  unfold powSum
  rw [List.range_succ, List.map_append, List.sum_append]
  simp

lemma powSum_zero (n : ℕ) : powSum n 0 = n := by
  induction n with
  | zero => simp [powSum]
  | succ k ih =>
      rw [powSum_succ, ih]
      push_cast
      ring

lemma powSum_one (n : ℕ) : powSum n 1 = ((n : ℚ) ^ 2 - n) / 2 := by
  induction n with
  | zero => simp [powSum]
  | succ k ih =>
      rw [powSum_succ, ih]
      push_cast
      ring

lemma powSum_two (n : ℕ) :
    powSum n 2 = (2 * (n : ℚ) ^ 3 - 3 * (n : ℚ) ^ 2 + n) / 6 := by
  induction n with
  | zero => simp [powSum]
  | succ k ih =>
      rw [powSum_succ, ih]
      push_cast
      ring

lemma momSum_linear (a b : ℚ) (n p : ℕ) :
    momSum ((List.range n).map (fun i : ℕ => a + b * (i : ℚ))) p =
      a * powSum n p + b * powSum n (p + 1) := by
  have hcong : (List.range n).map (fun i : ℕ => (i : ℚ) ^ p *
      (((List.range n).map (fun j : ℕ => a + b * (j : ℚ))).getD i 0)) =
      (List.range n).map (fun i : ℕ => (i : ℚ) ^ p * (a + b * (i : ℚ))) := by
    apply List.map_congr_left
    intro i hi
    have hi' : i < n := List.mem_range.mp hi
    have hlt : i < ((List.range n).map (fun j : ℕ => a + b * (j : ℚ))).length := by
      simpa using hi'
    rw [List.getD_eq_getElem _ _ hlt, List.getElem_map, List.getElem_range]
  unfold momSum
  rw [List.length_map, List.length_range, hcong]
  simp only [powSum]
  exact sum_map_add_mul (List.range n) p a b

lemma momSum_linear_zero (a b : ℚ) (n : ℕ) :
    momSum ((List.range n).map (fun i : ℕ => a + b * (i : ℚ))) 0 =
      a * powSum n 0 + b * powSum n 1 := by
  simpa using momSum_linear a b n 0

lemma momSum_linear_one (a b : ℚ) (n : ℕ) :
    momSum ((List.range n).map (fun i : ℕ => a + b * (i : ℚ))) 1 =
      a * powSum n 1 + b * powSum n 2 := by
  simpa using momSum_linear a b n 1

lemma cramer_two_solves (S0 S1 S2 a b : ℚ)
    (hd : S0 * S2 - S1 * S1 ≠ 0) :
    ((a * S0 + b * S1) * S2 - S1 * (a * S1 + b * S2)) /
        (S0 * S2 - S1 * S1) = a ∧
    (S0 * (a * S1 + b * S2) - (a * S0 + b * S1) * S1) /
        (S0 * S2 - S1 * S1) = b := by
  constructor
  · rw [div_eq_iff hd]
    ring
  · rw [div_eq_iff hd]
    ring

lemma polyFit_one_linear (a b : ℚ) (n : ℕ) (hn : 2 ≤ n) :
    polyFit 1 ((List.range n).map (fun i : ℕ => a + b * (i : ℚ))) = [a, b] := by
  have hlen : ((List.range n).map (fun i : ℕ => a + b * (i : ℚ))).length = n := by
    simp
  have hM : normalMat 1 n =
      [[powSum n 0, powSum n 1], [powSum n 1, powSum n 2]] := rfl
  have hv : normalVec 1 ((List.range n).map (fun i : ℕ => a + b * (i : ℚ))) =
      [momSum ((List.range n).map (fun i : ℕ => a + b * (i : ℚ))) 0,
        momSum ((List.range n).map (fun i : ℕ => a + b * (i : ℚ))) 1] := rfl
  have h2 : (2 : ℚ) ≤ (n : ℚ) := by exact_mod_cast hn
  have hd : powSum n 0 * powSum n 2 - powSum n 1 * powSum n 1 ≠ 0 := by
    have heq : powSum n 0 * powSum n 2 - powSum n 1 * powSum n 1 =
        ((n : ℚ) ^ 4 - (n : ℚ) ^ 2) / 12 := by
      rw [powSum_zero, powSum_one, powSum_two]
      ring
    rw [heq]
    have hq4 : (4 : ℚ) ≤ (n : ℚ) ^ 2 := by nlinarith
    have hq0 : (0 : ℚ) < (n : ℚ) ^ 2 := by nlinarith
    have hqm : (0 : ℚ) < (n : ℚ) ^ 2 * ((n : ℚ) ^ 2 - 1) :=
      mul_pos hq0 (by linarith)
    have hpos : 0 < (n : ℚ) ^ 4 - (n : ℚ) ^ 2 := by nlinarith [hqm]
    exact div_ne_zero (ne_of_gt hpos) (by norm_num)
  unfold polyFit
  rw [hlen, hM, hv, momSum_linear_zero, momSum_linear_one, cramerSolve_two]
  have hc := cramer_two_solves (powSum n 0) (powSum n 1) (powSum n 2) a b hd
  exact List.cons_eq_cons.mpr ⟨hc.1, List.cons_eq_cons.mpr ⟨hc.2, rfl⟩⟩

/-- C4: on the concrete linear series `[("2023-01",100), ("2023-02",120),
("2023-03",140)]` with degree 1 and horizon 2, the forecast's fitted values
are exactly `[100, 120, 140]`, the predicted values `[160, 180]` and the
labels `["2023-04", "2023-05"]`; in general a degree-1 fit on a perfectly
linear series recovers the line's coefficients, and evaluating those
coefficients reproduces the line at every point. -/
theorem linear_forecast_exact :
    run_prediction 2 1
        [("2023-01", 100), ("2023-02", 120), ("2023-03", 140)] =
      (PredOutcome.ok ⟨[100, 120, 140], [160, 180],
        ["2023-04", "2023-05"]⟩, ⟨true, true⟩) ∧
    (∀ (a b : ℚ) (n : ℕ), 2 ≤ n →
      polyFit 1 ((List.range n).map (fun i : ℕ => a + b * (i : ℚ))) =
        [a, b]) ∧
    (∀ a b x : ℚ, evalPoly [a, b] x = a + b * x) := by
  have hfit : polyFit 1 [(100 : ℚ), 120, 140] = [100, 20] := by
    have h := polyFit_one_linear 100 20 3 (by norm_num)
    have hlist : (List.range 3).map (fun i : ℕ => (100 : ℚ) + 20 * (i : ℚ)) =
        [100, 120, 140] := by
      norm_num [List.range_succ]
    rw [hlist] at h
    exact h
  refine ⟨?_, fun a b n hn => polyFit_one_linear a b n hn, fun a b x => by
    simp [evalPoly]; ring⟩
  rw [run_prediction_ok 2 1
    [("2023-01", 100), ("2023-02", 120), ("2023-03", 140)]
    (by decide) (by decide) (by decide)]
  have hys : ([("2023-01", (100 : ℚ)), ("2023-02", 120),
      ("2023-03", 140)].map Prod.snd) = [100, 120, 140] := rfl
  simp only [Int.toNat_one, Int.toNat_ofNat, hys]
  rw [hfit]
  have hlbl : (match ([("2023-01", (100 : ℚ)), ("2023-02", 120),
        ("2023-03", 140)]).getLast? with
      | some lv =>
          match parseYM lv.1 with
          | some ym => futureLabels ym.1 ym.2 2
          | none => pLabels 2
      | none => pLabels 2) = ["2023-04", "2023-05"] := by
    decide
  simp only [Prod.mk.injEq, PredOutcome.ok.injEq, ForecastOk.mk.injEq]
  refine ⟨⟨?_, ?_, hlbl⟩, trivial⟩
  · norm_num [List.range_succ, evalPoly]
  · rw [show List.range ((2 : ℤ).toNat) = [0, 1] from rfl]
    norm_num [List.length_cons, evalPoly]

theorem linear_forecast_exact_witness :
    2 ≤ 3 ∧ polyFit 1
      ((List.range 3).map (fun i : ℕ => (1 : ℚ) + 2 * (i : ℚ))) = [1, 2] :=
  ⟨by decide, linear_forecast_exact.2.1 1 2 3 (by decide)⟩

end Dashboard
